import Mathlib

/-!
Verification of the mathpix-go client library's request-dispatch and
error-classification layer, embedded shallowly in Lean.

The embedding models, from the source:
- the error data model (`APIError`, `isErrorID`, `APIError.Error`) of errors.go;
- the dispatcher `call` of mathpix.go, with the external effects (request
  construction via httpin, the HTTP round trip via http.Client.Do, and the
  endpoint-specific typed decode) passed in as explicit outcomes, and the
  JSON decoding of the error envelope modelled concretely on a JSON value
  type following Go's encoding/json semantics for the `APIError` struct;
- the endpoint descriptor registry of endpoints.go;
- the app-token request builder of tokens.go;
- the usage request of usage.go, with the httpin payload encoder (an external
  dependency) modelled from the spec's Payload Encoder contract;
- the client options of mathpix.go, with the opaque parts of the client state
  (parsed URL, http.Client, logger, header hook) held abstract as type
  parameters.
-/

namespace Mathpix

/-- JSON values as consumed by Go's encoding/json: an object is an ordered
list of key/value pairs (later duplicates overwrite earlier ones, as in Go). -/
inductive Json where
  | null : Json
  | jbool : Bool → Json
  | jnum : Int → Json
  | jstr : String → Json
  | jarr : List Json → Json
  | jobj : List (String × Json) → Json

/-- `APIError` from errors.go: `{ID ErrorID; Message *string; Detail *string}`.
`ErrorID` is a Go string type; pointers to string are `Option String`. -/
structure APIError where
  id : String
  message : Option String
  detail : Option String
deriving DecidableEq, Repr

/-- The Go zero value of `APIError`: empty identifier, nil message and detail. -/
def APIError.zero : APIError := ⟨"", none, none⟩

/-- The `Error` method of `*APIError` (errors.go): the identifier alone when
`Message` is nil, else `fmt.Sprintf("%s: %s", e.ID.String(), *e.Message)`. -/
def APIError.errorString (e : APIError) : String :=
  match e.message with
  | none => e.id
  | some m => e.id ++ ": " ++ m

/-- `isErrorID` from errors.go: membership in the fixed set of known
provider error identifiers. -/
def isErrorID (i : String) : Bool :=
  match i with
  | "http_unauthorized" | "http_max_requests"
  | "json_syntax"
  | "image_missing" | "image_download_error" | "image_decode_error"
  | "image_no_content" | "image_not_supported" | "image_max_size"
  | "strokes_missing" | "strokes_syntax_error" | "strokes_no_content"
  | "opts_bad_callback" | "opts_unknown_ocr" | "opts_unknown_format"
  | "opts_number_required" | "opts_value_out_of_range"
  | "pdf_encrypted" | "pdf_unknown_id" | "pdf_missing"
  | "pdf_page_limit_exceeded"
  | "math_confidence" | "math_syntax"
  | "batch_unknown_id" | "sys_exception" | "sys_request_too_large" => true
  | _ => false

/-- One step of Go's encoding/json unmarshalling of an object member into the
`APIError` struct: the keys `id`, `message`, `detail` (the struct's JSON tags)
are populated when the value has the right type, a JSON null is a no-op for
the plain string and stores nil in the pointer fields, a wrongly typed value
is an unmarshalling error, and unknown keys are ignored. -/
def setAPIErrorField (acc : APIError) (k : String) (v : Json) :
    Except String APIError :=
  if k = "id" then
    match v with
    | Json.jstr s => Except.ok { acc with id := s }
    | Json.null => Except.ok acc
    | _ => Except.error "json: cannot unmarshal value into Go struct field APIError.id"
  else if k = "message" then
    match v with
    | Json.jstr s => Except.ok { acc with message := some s }
    | Json.null => Except.ok { acc with message := none }
    | _ => Except.error "json: cannot unmarshal value into Go struct field APIError.message"
  else if k = "detail" then
    match v with
    | Json.jstr s => Except.ok { acc with detail := some s }
    | Json.null => Except.ok { acc with detail := none }
    | _ => Except.error "json: cannot unmarshal value into Go struct field APIError.detail"
  else
    Except.ok acc

/-- Go's `json.Decode` of a body into `APIError` (the decode performed by
`nopDecode[APIError]` in mathpix.go): a JSON object populates the struct
field by field, a JSON null leaves the zero value, and any other top-level
value is an unmarshalling error. -/
def decodeAPIError : Json → Except String APIError
  | Json.null => Except.ok APIError.zero
  | Json.jobj fields =>
      fields.foldlM (fun acc kv => setAPIErrorField acc kv.1 kv.2) APIError.zero
  | _ => Except.error "json: cannot unmarshal value into Go value of type mathpix.APIError"

/-- The error surfaced by one `call` (mathpix.go lines 70-110), separated by
the return site: the httpin request-construction error (line 84), the
`http.Client.Do` transport error (line 93), a JSON decode error of the error
envelope or of the typed response (lines 98 and 107), and the `&apiErr`
returned by the classification branch (line 103). In Go all four share the
`error` interface; the classification branch is the only one that returns a
`*APIError`. -/
inductive CallError where
  | fromEncode : String → CallError
  | fromTransport : String → CallError
  | fromDecode : String → CallError
  | fromAPI : APIError → CallError
deriving DecidableEq, Repr

/-- The dispatcher `call` of mathpix.go. The outcomes of the external steps
are inputs: `buildRes` is the result of `httpin.NewRequestWithContext`,
`doRes` the result of `c.client.Do` (an HTTP status and the response body as
a JSON value), and `decodeResp` the endpoint's typed decode, applied to the
same body that `nopDecode` buffered for replay. The result mirrors the Go
named returns `(response Response, err error)`: the typed response starts at
its zero value (`none`) and every error path returns it unchanged. -/
def callImpl {ρ : Type} (buildRes : Except String Unit)
    (doRes : Except String (Nat × Json))
    (decodeResp : Json → Except String ρ) : Option ρ × Option CallError :=
  match buildRes with
  | Except.error e => (none, some (CallError.fromEncode e))
  | Except.ok _ =>
    match doRes with
    | Except.error e => (none, some (CallError.fromTransport e))
    | Except.ok (status, body) =>
      match decodeAPIError body with
      | Except.error e => (none, some (CallError.fromDecode e))
      | Except.ok apiErr =>
        if status < 200 ∨ 400 ≤ status ∨ isErrorID apiErr.id = true then
          (none, some (CallError.fromAPI apiErr))
        else
          match decodeResp body with
          | Except.error e => (none, some (CallError.fromDecode e))
          | Except.ok r => (some r, none)

/-- The dispatcher `call` of mathpix.go with the typed-decode step refined
to Go's actual semantics on the named return. `json.NewDecoder(resp).Decode(&response)`
mutates `response` in place before reporting its error: it can allocate and
partially populate the pointer and still return an `UnmarshalTypeError`, and
a JSON `null` body sets the pointer to nil with a nil error. `decodeInto`
therefore yields the value the decode leaves in `response` together with its
error, and the two return sites of lines 107 and 109 surface that pair
unchanged (`return` with the named values, then `return response, nil`).
The paths before the typed decode are identical to `callImpl`. -/
def callImplGo {ρ : Type} (buildRes : Except String Unit)
    (doRes : Except String (Nat × Json))
    (decodeInto : Json → Option ρ × Option String) : Option ρ × Option CallError :=
  match buildRes with
  | Except.error e => (none, some (CallError.fromEncode e))
  | Except.ok _ =>
    match doRes with
    | Except.error e => (none, some (CallError.fromTransport e))
    | Except.ok (status, body) =>
      match decodeAPIError body with
      | Except.error e => (none, some (CallError.fromDecode e))
      | Except.ok apiErr =>
        if status < 200 ∨ 400 ≤ status ∨ isErrorID apiErr.id = true then
          (none, some (CallError.fromAPI apiErr))
        else
          match decodeInto body with
          | (r, some e) => (r, some (CallError.fromDecode e))
          | (r, none) => (r, none)

/-- Go's `json.Decode` into a pointer-typed named return (every endpoint's
response type is a `*T`): the JSON literal `null` sets the pointer to nil
and reports no error (encoding/json's documented null-into-pointer rule,
reached before any element decoding); every other body is handled by the
element decoder, which reports the value left in the pointer and the decode
error, if any. -/
def decodePtrInto {τ : Type} (decElem : Json → Option τ × Option String) :
    Json → Option τ × Option String
  | Json.null => (none, none)
  | j => decElem j

/-- Whether a `call` outcome is the `&apiErr` of the classification branch. -/
def isAPIErrorOutcome : Option CallError → Bool
  | some (CallError.fromAPI _) => true
  | _ => false

/-- A typed decode that accepts any body; stands in for an arbitrary
endpoint decoder at concrete instantiations. -/
def dUnit : Json → Except String Unit := fun _ => Except.ok ()

/-- The provider's documented nested error-envelope body
`{"error":{"id":"image_missing"}}` (spec wire shape, and the shape of the
`ErrorResponse` struct declared in errors.go). -/
def bodyNestedImageMissing : Json :=
  Json.jobj [("error", Json.jobj [("id", Json.jstr "image_missing")])]

/-- A flat body `{"id":"image_missing"}`, the shape `nopDecode[APIError]`
actually recognizes. -/
def bodyFlatImageMissing : Json :=
  Json.jobj [("id", Json.jstr "image_missing")]

/-- The envelope value carrying the `image_missing` identifier. -/
def envImageMissing : APIError := ⟨"image_missing", none, none⟩

/-- `http.MethodPost` of Go's net/http. -/
def methodPost : String := "POST"

/-- `http.MethodGet` of Go's net/http. -/
def methodGet : String := "GET"

/-- The `endpoint[Request, Response]` type of endpoints.go restricted to its
runtime content: the Go type's request/response parameters are phantom
(zero-width `[0]Request`/`[0]Response` fields carrying no data), so the
descriptor is its HTTP method and path. -/
structure EndpointDescr where
  method : String
  name : String
deriving DecidableEq, Repr

/-- `imagesEndpoint` of endpoints.go: POST v3/image. -/
def imagesEndpoint : EndpointDescr := ⟨methodPost, "v3/image"⟩

/-- `documentsEndpoint` of endpoints.go: POST v3/pdf. -/
def documentsEndpoint : EndpointDescr := ⟨methodPost, "v3/pdf"⟩

/-- `conversionStatusEndpoint` of endpoints.go: GET v3/status. -/
def conversionStatusEndpoint : EndpointDescr := ⟨methodGet, "v3/status"⟩

/-- `batchEndpoint` of endpoints.go: POST v3/batch. -/
def batchEndpoint : EndpointDescr := ⟨methodPost, "v3/batch"⟩

/-- `strokesEndpoint` of endpoints.go: POST v3/strokes. -/
def strokesEndpoint : EndpointDescr := ⟨methodPost, "v3/strokes"⟩

/-- `appTokensEndpoint` of endpoints.go: POST v3/app-tokens. -/
def appTokensEndpoint : EndpointDescr := ⟨methodPost, "v3/app-tokens"⟩

/-- `ocrResultsEndpoint` of endpoints.go: GET v3/ocr-results. -/
def ocrResultsEndpoint : EndpointDescr := ⟨methodGet, "v3/ocr-results"⟩

/-- `getBatchEndpoint` of endpoints.go: GET v3/batch. -/
def getBatchEndpoint : EndpointDescr := ⟨methodGet, "v3/batch"⟩

/-- `requestUsageEndpoint` of endpoints.go: POST v3/usage. -/
def requestUsageEndpoint : EndpointDescr := ⟨methodPost, "v3/usage"⟩

/-- `AppTokenRequest` of tokens.go: a strokes-session flag and an expiration
in seconds (`int64`, modelled as `Int`). -/
structure AppTokenRequest where
  includeStrokesSessionID : Bool
  expires : Int
deriving DecidableEq, Repr

/-- `NewAppTokenRequest` of tokens.go: strokes session off, 300-second
default expiration. -/
def newAppTokenRequest : AppTokenRequest := ⟨false, 300⟩

/-- `WithStrokesSession` of tokens.go: enables the strokes session and pulls
an expiration above 300 back to 300. -/
def AppTokenRequest.withStrokesSession (r : AppTokenRequest) : AppTokenRequest :=
  let r := { r with includeStrokesSessionID := true }
  if r.expires > 300 then { r with expires := 300 } else r

/-- `WithExpiration` of tokens.go: clamps the requested seconds to
`[30, 300]` when the strokes session is enabled and to `[30, 43200]`
otherwise, then stores the result in `Expires`. -/
def AppTokenRequest.withExpiration (r : AppTokenRequest) (seconds : Int) :
    AppTokenRequest :=
  let s :=
    if r.includeStrokesSessionID then
      if seconds < 30 then 30 else if seconds > 300 then 300 else seconds
    else
      if seconds < 30 then 30 else if seconds > 43200 then 43200 else seconds
  { r with expires := s }

/-- A builder call on an `AppTokenRequest`: one of the two mutators of
tokens.go. -/
inductive TokenOp where
  | strokesSession : TokenOp
  | expiration : Int → TokenOp

/-- Applies one builder call. -/
def applyTokenOp (r : AppTokenRequest) : TokenOp → AppTokenRequest
  | TokenOp.strokesSession => r.withStrokesSession
  | TokenOp.expiration s => r.withExpiration s

/-- `RequestUsage` of usage.go: two query dates plus the `group_by` and
`timespan` query parameters, the latter two tagged `required` for the
httpin encoder. The `time.Time` fields are kept as their wire strings; they
carry no `required` directive and do not participate in the required-field
check. -/
structure RequestUsage where
  fromDate : String
  toDate : String
  groupBy : String
  timespan : String
deriving DecidableEq, Repr

/-- Modelled from the spec: the payload encoder (the external httpin
dependency, github.com/ggicci/httpin, not part of this repository) applied
to `RequestUsage`. Per the spec's Payload Encoder contract, a field whose
directive carries `required` fails with a caller-input error when the
field's value is the type's zero value (the empty string), before any
network I/O; otherwise encoding succeeds. -/
def encodeRequestUsage (r : RequestUsage) : Except String Unit :=
  if r.groupBy = "" then
    Except.error "invalid request: missing required field group_by"
  else if r.timespan = "" then
    Except.error "invalid request: missing required field timespan"
  else
    Except.ok ()

/-- The `Client` struct of mathpix.go. The parsed base URL (`url.URL`), the
`*http.Client`, the `*slog.Logger` and the `SetCommonHeaders` hook have no
structure the claims depend on, so they are held abstract as type
parameters. -/
structure ClientModel (U H L F : Type) where
  apiKey : String
  appID : String
  baseURL : U
  httpClient : H
  logger : L
  setCommonHeaders : F

/-- `WithBaseURL` of mathpix.go: `url.Parse` is Go's net/url (external), so
the option is modelled on the parse outcome. A successful parse replaces the
base URL; a failed parse (`none`) leaves the client untouched. As in the
source, the option returns no error. -/
def withBaseURL {U H L F : Type} (parsed : Option U)
    (c : ClientModel U H L F) : ClientModel U H L F :=
  match parsed with
  | some u => { c with baseURL := u }
  | none => c

/-- C1: for every known error identifier, if the HTTP status is 2xx and the
error envelope decoded from the response body carries that identifier, then
`call` returns the `*APIError` carrying that identifier and the zero typed
response — never a success. -/
theorem known_error_id_under_2xx_yields_api_error
    {ρ : Type} (d : Json → Except String ρ)
    (i : String) (status : Nat) (body : Json) (env : APIError)
    (hknown : isErrorID i = true)
    (hdec : decodeAPIError body = Except.ok env)
    (hid : env.id = i)
    (_hlo : 200 ≤ status) (_hhi : status ≤ 299) :
    callImpl (Except.ok ()) (Except.ok (status, body)) d
      = (none, some (CallError.fromAPI env)) := by
  have hc : status < 200 ∨ 400 ≤ status ∨ isErrorID env.id = true :=
    Or.inr (Or.inr (by rw [hid]; exact hknown))
  simp only [callImpl, hdec]
  rw [if_pos hc]

/-- Witness for C1 at the identifier `image_missing`, status 200 and the flat
body `{"id":"image_missing"}`. -/
theorem known_error_id_under_2xx_yields_api_error_witness :
    isErrorID "image_missing" = true ∧
    callImpl (Except.ok ()) (Except.ok (200, bodyFlatImageMissing)) dUnit
      = (none, some (CallError.fromAPI envImageMissing)) :=
  ⟨by decide,
   known_error_id_under_2xx_yields_api_error dUnit "image_missing" 200
     bodyFlatImageMissing envImageMissing (by decide) rfl rfl
     (by decide) (by decide)⟩

/-- C2: against a server answering HTTP 200 with the provider's documented
nested envelope `{"error":{"id":"image_missing"}}`, `call` (hence
`Client.Image`, whatever its typed decoder does with the body) never returns
the classification branch's `*APIError`: `nopDecode[APIError]` reads the
body flat, the nested identifier is an ignored unknown key, the envelope
stays at its zero value, and classification falls through to the typed
decode. The claim that an `APIError` with identifier `image_missing` is
returned is therefore false of the code. -/
theorem image_nested_error_envelope_not_classified
    {ρ : Type} (d : Json → Except String ρ) :
    decodeAPIError bodyNestedImageMissing = Except.ok APIError.zero ∧
    isAPIErrorOutcome
      (callImpl (Except.ok ()) (Except.ok (200, bodyNestedImageMissing)) d).2
      = false := by
  have hdec : decodeAPIError bodyNestedImageMissing = Except.ok APIError.zero := rfl
  refine ⟨hdec, ?_⟩
  have hc : ¬ ((200 : Nat) < 200 ∨ 400 ≤ (200 : Nat) ∨ isErrorID APIError.zero.id = true) := by
    decide
  simp only [callImpl, hdec]
  rw [if_neg hc]
  cases h : d bodyNestedImageMissing with
  | error e => simp [h, isAPIErrorOutcome]
  | ok r => simp [h, isAPIErrorOutcome]

/-- Counterexample to C3 as stated: a response with HTTP 200 and body `null`
passes classification (`null` decodes to the zero envelope, whose empty
identifier is not a known error id), and the typed decode of `null` into the
pointer-typed response sets the named return to nil with a nil error, so the
call surfaces neither a typed response nor an error — refuting "whenever it
returns a nil error, a decoded typed response is returned" and "never
neither". -/
theorem null_body_neither_response_nor_error :
    callImplGo (Except.ok ()) (Except.ok (200, Json.null))
        (decodePtrInto (fun _ => (some (), none)))
      = (none, none) := rfl

/-- C3 amended: exactly one of typed response and error is surfaced on every
path up to and including classification — request construction, transport,
envelope-decode and classification failures all return a non-nil error with
the zero typed response; past classification, `call` surfaces exactly the
value and the error that the typed decode leaves in the Go named return,
which for a pointer response may be neither (a `null` body) or both (a
partially populated response alongside a decode error). -/
theorem exactly_one_up_to_typed_decode
    {ρ : Type} (b : Except String Unit) (dr : Except String (Nat × Json))
    (dec : Json → Option ρ × Option String) :
    ((callImplGo b dr dec).1 = none ∧ (callImplGo b dr dec).2.isSome = true) ∨
    (∃ status body, dr = Except.ok (status, body) ∧
      callImplGo b dr dec
        = ((dec body).1, Option.map CallError.fromDecode (dec body).2)) := by
  rcases b with e | u
  · left
    exact ⟨rfl, rfl⟩
  · rcases dr with e | ⟨status, body⟩
    · left
      exact ⟨rfl, rfl⟩
    · rcases hdec : decodeAPIError body with e | env
      · have hmain : callImplGo (Except.ok ()) (Except.ok (status, body)) dec
            = (none, some (CallError.fromDecode e)) := by
          simp only [callImplGo, hdec]
        left
        rw [hmain]
        exact ⟨rfl, rfl⟩
      · by_cases hc : status < 200 ∨ 400 ≤ status ∨ isErrorID env.id = true
        · have hmain : callImplGo (Except.ok ()) (Except.ok (status, body)) dec
              = (none, some (CallError.fromAPI env)) := by
            simp only [callImplGo, hdec]
            rw [if_pos hc]
          left
          rw [hmain]
          exact ⟨rfl, rfl⟩
        · right
          refine ⟨status, body, rfl, ?_⟩
          simp only [callImplGo, hdec]
          rw [if_neg hc]
          rcases hdb : dec body with ⟨r, oe⟩
          rcases oe with _ | e
          · simp [hdb]
          · simp [hdb]

/-- C4: for every HTTP status outside [200,399] and every body, `call`
returns an error and the zero typed response: the `*APIError` carrying the
decoded envelope when the envelope decodes, and the decode error itself
otherwise. -/
theorem status_outside_success_range_yields_error
    {ρ : Type} (status : Nat) (body : Json) (d : Json → Except String ρ)
    (h : status < 200 ∨ 400 ≤ status) :
    (callImpl (Except.ok ()) (Except.ok (status, body)) d).1 = none ∧
    (callImpl (Except.ok ()) (Except.ok (status, body)) d).2.isSome = true ∧
    ∀ env : APIError, decodeAPIError body = Except.ok env →
      callImpl (Except.ok ()) (Except.ok (status, body)) d
        = (none, some (CallError.fromAPI env)) := by
  rcases hdec : decodeAPIError body with e | env
  · have hmain : callImpl (Except.ok ()) (Except.ok (status, body)) d
        = (none, some (CallError.fromDecode e)) := by
      simp only [callImpl, hdec]
    refine ⟨by rw [hmain], by rw [hmain]; rfl, fun env henv => ?_⟩
    simp at henv
  · have hc : status < 200 ∨ 400 ≤ status ∨ isErrorID env.id = true := by
      rcases h with h | h
      · exact Or.inl h
      · exact Or.inr (Or.inl h)
    have hmain : callImpl (Except.ok ()) (Except.ok (status, body)) d
        = (none, some (CallError.fromAPI env)) := by
      simp only [callImpl, hdec]
      rw [if_pos hc]
    refine ⟨by rw [hmain], by rw [hmain]; rfl, fun env2 henv => ?_⟩
    injection henv with henv
    rw [hmain, henv]

/-- Witness for C4 at status 500 with the body `{}` (which decodes to the
zero envelope). -/
theorem status_outside_success_range_yields_error_witness :
    (callImpl (Except.ok ()) (Except.ok (500, Json.jobj [])) dUnit).1 = none ∧
    (callImpl (Except.ok ()) (Except.ok (500, Json.jobj [])) dUnit).2.isSome = true ∧
    callImpl (Except.ok ()) (Except.ok (500, Json.jobj [])) dUnit
      = (none, some (CallError.fromAPI APIError.zero)) :=
  ⟨(status_outside_success_range_yields_error 500 (Json.jobj []) dUnit
      (Or.inr (by decide))).1,
   (status_outside_success_range_yields_error 500 (Json.jobj []) dUnit
      (Or.inr (by decide))).2.1,
   (status_outside_success_range_yields_error 500 (Json.jobj []) dUnit
      (Or.inr (by decide))).2.2 APIError.zero rfl⟩

/-- C5: a `RequestUsage` whose `required` query-parameter field (`group_by`
or `timespan`) is left at the string zero value fails to encode with a
caller-input error, and the dispatcher then returns that error without the
outcome depending in any way on the network round trip (the `Do` outcome is
universally quantified); with both fields non-zero, encoding succeeds. -/
theorem required_usage_fields_checked_before_network (r : RequestUsage) :
    (r.groupBy = "" →
      encodeRequestUsage r
        = Except.error "invalid request: missing required field group_by" ∧
      ∀ (ρ : Type) (dr : Except String (Nat × Json)) (d : Json → Except String ρ),
        callImpl (encodeRequestUsage r) dr d
          = (none, some (CallError.fromEncode
              "invalid request: missing required field group_by"))) ∧
    (r.groupBy ≠ "" → r.timespan = "" →
      encodeRequestUsage r
        = Except.error "invalid request: missing required field timespan" ∧
      ∀ (ρ : Type) (dr : Except String (Nat × Json)) (d : Json → Except String ρ),
        callImpl (encodeRequestUsage r) dr d
          = (none, some (CallError.fromEncode
              "invalid request: missing required field timespan"))) ∧
    (r.groupBy ≠ "" → r.timespan ≠ "" → encodeRequestUsage r = Except.ok ()) := by
  refine ⟨fun hg => ?_, fun hg ht => ?_, fun hg ht => ?_⟩
  · have he : encodeRequestUsage r
        = Except.error "invalid request: missing required field group_by" := by
      simp [encodeRequestUsage, hg]
    exact ⟨he, fun ρ dr d => by rw [he]; rfl⟩
  · have he : encodeRequestUsage r
        = Except.error "invalid request: missing required field timespan" := by
      simp [encodeRequestUsage, hg, ht]
    exact ⟨he, fun ρ dr d => by rw [he]; rfl⟩
  · simp [encodeRequestUsage, hg, ht]

/-- Witness for C5: the all-empty request fails on `group_by` and the
dispatcher surfaces that error; a request with `group_by` and `timespan`
set encodes successfully. -/
theorem required_usage_fields_checked_before_network_witness :
    encodeRequestUsage ⟨"", "", "", ""⟩
      = Except.error "invalid request: missing required field group_by" ∧
    callImpl (encodeRequestUsage ⟨"", "", "", ""⟩)
        (Except.ok (200, Json.jobj [])) dUnit
      = (none, some (CallError.fromEncode
          "invalid request: missing required field group_by")) ∧
    encodeRequestUsage ⟨"", "", "month", "1d"⟩ = Except.ok () := by
  refine ⟨?_, ?_, ?_⟩
  · exact ((required_usage_fields_checked_before_network ⟨"", "", "", ""⟩).1 rfl).1
  · exact ((required_usage_fields_checked_before_network ⟨"", "", "", ""⟩).1 rfl).2
      Unit (Except.ok (200, Json.jobj [])) dUnit
  · exact (required_usage_fields_checked_before_network
      ⟨"", "", "month", "1d"⟩).2.2 (by decide) (by decide)

/-- C6: on a request with the strokes session enabled, `WithExpiration 500`
stores 300; in general `WithExpiration` stores the requested seconds clamped
to `[30, 300]` when the strokes session is enabled and to `[30, 43200]`
otherwise. -/
theorem withExpiration_clamps :
    ((newAppTokenRequest.withStrokesSession).withExpiration 500).expires = 300 ∧
    ∀ (r : AppTokenRequest) (s : Int),
      (r.withExpiration s).expires =
        if r.includeStrokesSessionID then min 300 (max 30 s)
        else min 43200 (max 30 s) := by
  refine ⟨rfl, fun r s => ?_⟩
  simp only [AppTokenRequest.withExpiration]
  cases hb : r.includeStrokesSessionID <;> simp <;> split_ifs <;> omega

/-- C7: the endpoint descriptor registry carries exactly the verbs and paths
of the spec's table for the nine logical operations. The registry consists
of top-level constant definitions (translated here as immutable `def`s, as
in the source where no code assigns to the package-level descriptor
variables after initialization); no operation mutates it. -/
theorem endpoint_registry_matches_table :
    imagesEndpoint.method = "POST" ∧ imagesEndpoint.name = "v3/image" ∧
    documentsEndpoint.method = "POST" ∧ documentsEndpoint.name = "v3/pdf" ∧
    conversionStatusEndpoint.method = "GET" ∧
    conversionStatusEndpoint.name = "v3/status" ∧
    batchEndpoint.method = "POST" ∧ batchEndpoint.name = "v3/batch" ∧
    getBatchEndpoint.method = "GET" ∧ getBatchEndpoint.name = "v3/batch" ∧
    strokesEndpoint.method = "POST" ∧ strokesEndpoint.name = "v3/strokes" ∧
    ocrResultsEndpoint.method = "GET" ∧
    ocrResultsEndpoint.name = "v3/ocr-results" ∧
    appTokensEndpoint.method = "POST" ∧
    appTokensEndpoint.name = "v3/app-tokens" ∧
    requestUsageEndpoint.method = "POST" ∧ requestUsageEndpoint.name = "v3/usage" :=
  ⟨rfl, rfl, rfl, rfl, rfl, rfl, rfl, rfl, rfl, rfl, rfl, rfl, rfl, rfl, rfl,
   rfl, rfl, rfl⟩

/-- C8: the string form of an `APIError` is `"<identifier>: <message>"` when
`Message` is non-nil and just the identifier when `Message` is nil. -/
theorem apiError_string_form :
    (∀ e : APIError, e.message = none → e.errorString = e.id) ∧
    (∀ (e : APIError) (m : String), e.message = some m →
      e.errorString = e.id ++ ": " ++ m) := by
  constructor
  · intro e h
    unfold APIError.errorString
    rw [h]
  · intro e m h
    unfold APIError.errorString
    rw [h]

/-- Witness for C8 at a nil and a non-nil message. -/
theorem apiError_string_form_witness :
    APIError.errorString ⟨"image_missing", none, none⟩ = "image_missing" ∧
    APIError.errorString ⟨"image_missing", some "Image not provided", none⟩
      = "image_missing: Image not provided" := by
  constructor
  · exact apiError_string_form.1 ⟨"image_missing", none, none⟩ rfl
  · have h := apiError_string_form.2
      ⟨"image_missing", some "Image not provided", none⟩ "Image not provided" rfl
    exact h

/-- The two builder mutators of tokens.go each preserve the expiration
bounds: expiration within `[30, 43200]`, and within `[30, 300]` whenever the
strokes session is enabled. -/
theorem applyTokenOp_preserves_bounds (r : AppTokenRequest) (op : TokenOp)
    (h1 : 30 ≤ r.expires) (h2 : r.expires ≤ 43200)
    (_h3 : r.includeStrokesSessionID = true → r.expires ≤ 300) :
    30 ≤ (applyTokenOp r op).expires ∧
    (applyTokenOp r op).expires ≤ 43200 ∧
    ((applyTokenOp r op).includeStrokesSessionID = true →
      (applyTokenOp r op).expires ≤ 300) := by
  cases op with
  | strokesSession =>
      simp only [applyTokenOp, AppTokenRequest.withStrokesSession]
      split_ifs with hgt
      · refine ⟨?_, ?_, fun _ => ?_⟩ <;> dsimp only <;> omega
      · refine ⟨?_, ?_, fun _ => ?_⟩ <;> dsimp only <;> omega
  | expiration s =>
      simp only [applyTokenOp, AppTokenRequest.withExpiration]
      cases hb : r.includeStrokesSessionID <;>
        refine ⟨?_, ?_, ?_⟩ <;> simp <;> split_ifs <;> omega

/-- The bounds hold after any builder sequence, from any starting request
satisfying them. -/
theorem tokenOps_foldl_preserves_bounds (ops : List TokenOp) :
    ∀ r : AppTokenRequest, 30 ≤ r.expires → r.expires ≤ 43200 →
      (r.includeStrokesSessionID = true → r.expires ≤ 300) →
      30 ≤ (ops.foldl applyTokenOp r).expires ∧
      (ops.foldl applyTokenOp r).expires ≤ 43200 ∧
      ((ops.foldl applyTokenOp r).includeStrokesSessionID = true →
        (ops.foldl applyTokenOp r).expires ≤ 300) := by
  induction ops with
  | nil => exact fun r h1 h2 h3 => ⟨h1, h2, h3⟩
  | cons op rest ih =>
      intro r h1 h2 h3
      have hstep := applyTokenOp_preserves_bounds r op h1 h2 h3
      exact ih (applyTokenOp r op) hstep.1 hstep.2.1 hstep.2.2

/-- C9: starting from `NewAppTokenRequest()` and applying any finite
sequence of `WithStrokesSession` and `WithExpiration` calls, the resulting
request satisfies `30 ≤ Expires ≤ 43200`, and `Expires ≤ 300` whenever
`IncludeStrokesSessionID` is true. -/
theorem token_builder_invariant (ops : List TokenOp) :
    30 ≤ (ops.foldl applyTokenOp newAppTokenRequest).expires ∧
    (ops.foldl applyTokenOp newAppTokenRequest).expires ≤ 43200 ∧
    ((ops.foldl applyTokenOp newAppTokenRequest).includeStrokesSessionID = true →
      (ops.foldl applyTokenOp newAppTokenRequest).expires ≤ 300) :=
  tokenOps_foldl_preserves_bounds ops newAppTokenRequest (by decide) (by decide)
    (fun h => by cases h)

/-- Witness for C9 at the sequence WithStrokesSession then
WithExpiration 500, whose result has the strokes session enabled. -/
theorem token_builder_invariant_witness :
    30 ≤ ([TokenOp.strokesSession, TokenOp.expiration 500].foldl
        applyTokenOp newAppTokenRequest).expires ∧
    ([TokenOp.strokesSession, TokenOp.expiration 500].foldl
        applyTokenOp newAppTokenRequest).expires ≤ 43200 ∧
    ([TokenOp.strokesSession, TokenOp.expiration 500].foldl
        applyTokenOp newAppTokenRequest).expires ≤ 300 := by
  have h := token_builder_invariant [TokenOp.strokesSession, TokenOp.expiration 500]
  exact ⟨h.1, h.2.1, h.2.2 rfl⟩

/-- C10: applying `WithBaseURL` built from a string that fails URL parsing
(`none` outcome of `url.Parse`) leaves the client completely unchanged —
the option is silently ignored and reports no error (its type returns
nothing but the mutated client) — and even on a successful parse every
client field other than the base URL is untouched. -/
theorem withBaseURL_parse_failure_is_noop :
    (∀ (U H L F : Type) (c : ClientModel U H L F), withBaseURL none c = c) ∧
    (∀ (U H L F : Type) (c : ClientModel U H L F) (u : U),
      (withBaseURL (some u) c).apiKey = c.apiKey ∧
      (withBaseURL (some u) c).appID = c.appID ∧
      (withBaseURL (some u) c).httpClient = c.httpClient ∧
      (withBaseURL (some u) c).logger = c.logger ∧
      (withBaseURL (some u) c).setCommonHeaders = c.setCommonHeaders ∧
      (withBaseURL (some u) c).baseURL = u) :=
  ⟨fun _ _ _ _ _ => rfl,
   fun _ _ _ _ _ _ => ⟨rfl, rfl, rfl, rfl, rfl, rfl⟩⟩

end Mathpix
